/-
Verification of PyNetworkLib against its specification.

This file gives a shallow embedding, in Lean 4, of the parts of
PyNetworkLib that the checked properties talk about:

  * `Server/HTTP/Utils/HostField.py`  (the Host-header parser),
  * `Server/HTTP/PreHandler.py`       (the request validation pipeline),
  * `Server/HTTP/HandlerByPath/Utils.py` (path routing),
  * `Server/HTTP/Auth/ConcurrentLimiter.py`,
  * `Server/HTTP/Auth/RateLimiter.py`,
  * `Server/Utils/DownstreamHandlerBlockByRate.py`,
  * `Server/HTTPS/Auth/TLS.py`        (the custom X.509 chain walker).

Machine integers are modelled as `Nat`/`Int`; wall-clock times as `Int`;
fallible code returns `Option`/`Except`.  Calls into external libraries
(`cryptography` signature verification, `ipaddress` IPv6 parsing) are
modelled as explicit function parameters, so every theorem quantifies
over the behaviour of the external primitive.
-/
import Mathlib

namespace PyNetworkLib

/-! Host-field parser (`Server/HTTP/Utils/HostField.py`)

The parser classifies the `Host:` header with three anchored regexes,
tried in order:

  domain : `^((?:[a-zA-Z0-9][a-zA-Z0-9-]{0,61}[a-zA-Z0-9]\.)+[a-zA-Z]{2,})(:[0-9]+)?$`
  ipv4   : `^([0-9]+\.[0-9]+\.[0-9]+\.[0-9]+)(:[0-9]+)?$`
  ipv6   : `^\[([0-9a-fA-F:]+)\](:[0-9]+)?$`

Since none of the three body patterns can contain a colon (the IPv6 body
is bracketed), the optional `(:[0-9]+)?` group is recovered by splitting
at the first colon (first closing bracket for IPv6); the regexes are then
decomposed into the checks below.  `ipaddress.IPv4Address` is modelled
concretely (octet value, length and leading-zero rules);
`ipaddress.IPv6Address` is an abstract parameter `ipv6Valid`. -/

/-- Decimal value of a digit string, as computed by Python `int`. -/
def digitsToNat (l : List Char) : Nat :=
  l.foldl (fun acc c => 10 * acc + (c.toNat - '0'.toNat)) 0

/-- Split a string at its first colon: body, and the characters after the
colon when one exists (the candidate `(:...)` group of the regexes). -/
def splitFirstColon : List Char → List Char × Option (List Char)
  | [] => ([], none)
  | c :: rest =>
    if c = ':' then ([], some rest)
    else
      let (b, p) := splitFirstColon rest
      (c :: b, p)

/-- The optional port group `(:[0-9]+)?`: absent, or one-or-more digits. -/
def portGroupOK : Option (List Char) → Bool
  | none => true
  | some ds => decide (1 ≤ ds.length) && ds.all Char.isDigit

/-- One domain label `[a-zA-Z0-9][a-zA-Z0-9-]{0,61}[a-zA-Z0-9]`. -/
def domainLabelOK (l : List Char) : Bool :=
  match l.head?, l.getLast? with
  | some a, some b =>
    decide (2 ≤ l.length) && decide (l.length ≤ 63) &&
    a.isAlphanum && b.isAlphanum &&
    ((l.drop 1).dropLast.all fun c => c.isAlphanum || c == '-')
  | _, _ => false

/-- Domain body `(?:LABEL\.)+[a-zA-Z]{2,}`: since a label cannot contain
a dot, this is equivalent to splitting on dots. -/
def domainBodyOK (l : List Char) : Bool :=
  let parts := l.splitOn '.'
  match parts.getLast? with
  | some tld =>
    decide (2 ≤ parts.length) && parts.dropLast.all domainLabelOK &&
    decide (2 ≤ tld.length) && tld.all Char.isAlpha
  | none => false

/-- IPv4 regex body `[0-9]+\.[0-9]+\.[0-9]+\.[0-9]+`. -/
def ipv4RegexOK (l : List Char) : Bool :=
  let parts := l.splitOn '.'
  decide (parts.length = 4) &&
  parts.all fun p => decide (1 ≤ p.length) && p.all Char.isDigit

/-- Python `ipaddress.IPv4Address` octet rule: at most three digits, no leading
zero, value at most 255 (the regex already guarantees digits). -/
def ipv4OctetOK (p : List Char) : Bool :=
  decide (p.length ≤ 3) &&
  (decide (p.length = 1) || decide (p.head? ≠ some '0')) &&
  decide (digitsToNat p ≤ 255)

/-- Python `ipaddress.IPv4Address` acceptance of the dotted quad. -/
def ipv4AddrOK (l : List Char) : Bool :=
  (l.splitOn '.').all ipv4OctetOK

/-- Characters admitted by the bracketed IPv6 body `[0-9a-fA-F:]+`. -/
def isHexOrColon (c : Char) : Bool :=
  c.isDigit || (decide ('a' ≤ c) && decide (c ≤ 'f')) ||
  (decide ('A' ≤ c) && decide (c ≤ 'F')) || c == ':'

/-- Split the contents of the first bracket pair: for `[inside]after`
return `(inside, after)`; the IPv6 regex body cannot contain `]`. -/
def splitAtRBracket : List Char → Option (List Char × List Char)
  | [] => none
  | c :: rest =>
    if c = ']' then some ([], rest)
    else (splitAtRBracket rest).map fun p => (c :: p.1, p.2)

/-- Peel the leading `[` of the IPv6 regex. -/
def splitBracketed : List Char → Option (List Char × List Char)
  | '[' :: rest => splitAtRBracket rest
  | _ => none

/-- The text after `]` must be empty or `:[0-9]+`; returns the port
group on a match. -/
def afterBracketPort : List Char → Option (Option (List Char))
  | [] => some none
  | ':' :: ds =>
    if decide (1 ≤ ds.length) && ds.all Char.isDigit then some (some ds) else none
  | _ => none

/-- Tags of the three `HostField` classes. -/
inductive HostFieldKind
  | domain
  | ipv4
  | ipv6
deriving DecidableEq, Repr

/-- Result of `ParseHostField`: the class built, its host part, and the
port.  `portExplicit` records whether regex group 2 (the `:port` suffix)
was present, which in the source decides the `_DeterminePortNum` branch. -/
structure HostField where
  kind : HostFieldKind
  hostPart : List Char
  port : Nat
  portExplicit : Bool
deriving DecidableEq, Repr

/-- Function `_DeterminePortNum`: digits of group 2 when present, else the
caller-supplied default port. -/
def DeterminePortNum (portGroup : Option (List Char)) (defaultPort : Nat) : Nat :=
  match portGroup with
  | some ds => digitsToNat ds
  | none => defaultPort

/-- Function `ParseHostField`: try the domain, IPv4 and IPv6 regexes in order;
`none` models the trailing `raise ValueError` (including the `ValueError`
raised by `ipaddress` on a regex-matching but invalid address, which the
function does not catch either).  `ipv6Valid` abstracts
`ipaddress.IPv6Address` acceptance. -/
def ParseHostField (ipv6Valid : List Char → Bool) (host : List Char)
    (defaultPort : Nat) : Option HostField :=
  let (body, pg) := splitFirstColon host
  if domainBodyOK body && portGroupOK pg then
    some ⟨.domain, body, DeterminePortNum pg defaultPort, pg.isSome⟩
  else if ipv4RegexOK body && portGroupOK pg then
    if ipv4AddrOK body then
      some ⟨.ipv4, body, DeterminePortNum pg defaultPort, pg.isSome⟩
    else none
  else
    match splitBracketed host with
    | some (inside, after) =>
      match afterBracketPort after with
      | some pg6 =>
        if decide (1 ≤ inside.length) && inside.all isHexOrColon then
          if ipv6Valid inside then
            some ⟨.ipv6, inside, DeterminePortNum pg6 defaultPort, pg6.isSome⟩
          else none
        else none
      | none => none
    | none => none

/-! Valid character sets (`Server/HTTP/Utils/ValidChars.py`) -/

/-- Source `VALID_CHARS_PATH = ALPHA_LOWER + ALPHA_UPPER + NUM + SAFE_SAFE`. -/
def VALID_CHARS_PATH : List Char :=
  "abcdefghijklmnopqrstuvwxyzABCDEFGHIJKLMNOPQRSTUVWXYZ0123456789-_".toList

/-- Source `VALID_CHARS_PATH_QUERY = VALID_CHARS_PATH + SAFE + RESERVED`. -/
def VALID_CHARS_PATH_QUERY : List Char :=
  VALID_CHARS_PATH ++ "-_$.+!*\x27(),".toList ++ ";/?:@=&".toList

/-! HTTP Pre-Handler (`Server/HTTP/PreHandler.py`)

`_HandleOneRequest` validates in order: command against the enabled set,
`Host` header presence, `ParseHostField`, path characters; only then does
it enter the `try` block that guards the downstream call.  The
`ParseHostField` call sits outside every `try`, and the enclosing
`handle_one_request` catches only `TimeoutError`, so a `ValueError` from
host parsing propagates out of the handler. -/

/-- Method `PreHandler._HasInvalidCharInPath`. -/
def HasInvalidCharInPath (path : List Char) : Bool :=
  path.any fun ch => !(VALID_CHARS_PATH_QUERY.contains ch)

/-- Observable outcome of `_HandleOneRequest` up to the downstream
dispatch decision. -/
inductive PreOutcome
  | sendError (code : Nat)
  | uncaughtException
  | forwardToDownstream
deriving DecidableEq, Repr

/-- The validation pipeline of `PreHandler._HandleOneRequest`:
`send_error(400)` paths, the uncaught `ValueError` from
`ParseHostField`, or dispatch to the downstream handler. -/
def HandleOneRequest (ipv6Valid : List Char → Bool)
    (enabledCommands : List String) (listenPort : Nat)
    (command : String) (hostHeader : Option (List Char))
    (path : List Char) : PreOutcome :=
  if !(enabledCommands.contains command) then .sendError 400
  else
    match hostHeader with
    | none => .sendError 400
    | some h =>
      match ParseHostField ipv6Valid h listenPort with
      | none => .uncaughtException
      | some _ =>
        if HasInvalidCharInPath path then .sendError 400
        else .forwardToDownstream

/-! Path routing (`Server/HTTP/HandlerByPath/Utils.py`) -/

/-- Membership in `VALID_CHARS_PATH` (the split-point test of
`_IdxOfNextSplitPoint`). -/
def isValidPathChar (c : Char) : Bool :=
  VALID_CHARS_PATH.contains c

/-- Function `_SplitThisAndNextLevelPath`: `""` maps to `("", "")`; a path
starting with `/` is cut at the first character outside
`VALID_CHARS_PATH` after the leading slash (`_IdxOfNextSplitPoint`
starting at index 1); anything else raises `InvalidPathError`. -/
def SplitThisAndNextLevelPath (path : List Char) :
    Except (List Char) (List Char × List Char) :=
  match path with
  | [] => .ok ([], [])
  | c :: rest =>
    if c = '/' then
      .ok ('/' :: rest.takeWhile isValidPathChar, rest.dropWhile isValidPathChar)
    else .error path

/-- Routing outcome of `HandlerByPathInner`: a 404, or the invocation of
a mapped handler (named by an identifier) on the next-level path. -/
inductive RouteOutcome
  | notFound404
  | invoke (handlerId : Nat) (nextRelPath : List Char)
deriving DecidableEq, Repr

/-- The inner handler built by `HandlerByPathMap`: split the path, look up the
this-level key, then the request method; every missing step answers 404,
otherwise the mapped handler is called with `relPath` replaced by the
next-level path.  The nested dicts are modelled as functions. -/
def HandlerByPathInner (pathMap : List Char → Option (String → Option Nat))
    (command : String) (relPath : List Char) : RouteOutcome :=
  match SplitThisAndNextLevelPath relPath with
  | .error _ => .notFound404
  | .ok (thisLevelPath, nextLevelPath) =>
    match pathMap thisLevelPath with
    | none => .notFound404
    | some methodHdlrMap =>
      match methodHdlrMap command with
      | none => .notFound404
      | some handler => .invoke handler nextLevelPath

/-- The inner handler built by `EndPointHandler`: call the wrapped handler when
`relPath` is empty, else 404. -/
def EndPointHandlerInner (wrapped : Nat) (relPath : List Char) : RouteOutcome :=
  if relPath = [] then .invoke wrapped relPath else .notFound404

/-! Concurrent limiter (`Server/HTTP/Auth/ConcurrentLimiter.py`) -/

/-- Python `threading.Semaphore.acquire(blocking=False)`: success flag and new
permit count. -/
def semTryAcquire (available : Nat) : Bool × Nat :=
  if available = 0 then (false, available) else (true, available - 1)

/-- Python `threading.Semaphore.release`. -/
def semRelease (available : Nat) : Nat :=
  available + 1

/-- Observable behaviour of one `ConcurrentLimiter.HandleRequest` call. -/
structure CLOutcome where
  acquired : Bool
  released : Bool
  response : Option (Nat × String)
  downstreamInvoked : Bool
  exceptionPropagated : Bool
  semAfter : Nat
deriving DecidableEq, Repr

/-- Method `ConcurrentLimiter.HandleRequest`: non-blocking acquire; on failure
set a 403 response and return; on success invoke the downstream handler
inside `try` with the release in `finally`, so the permit is returned
whether or not the downstream raises (`downstreamRaises`). -/
def ConcurrentLimiterHandleRequest (available : Nat)
    (downstreamRaises : Bool) : CLOutcome :=
  match semTryAcquire available with
  | (false, a) =>
    { acquired := false, released := false
      response := some (403, "Forbidden")
      downstreamInvoked := false, exceptionPropagated := false
      semAfter := a }
  | (true, a) =>
    { acquired := true, released := true
      response := none
      downstreamInvoked := true, exceptionPropagated := downstreamRaises
      semAfter := semRelease a }

/-! Stage call signatures (the handler-chain contract)

Python keyword-call semantics for the `HandleRequest` methods: a call
succeeds when every supplied keyword is a declared parameter (or the
declaration has `**kwargs`) and every declared parameter without a
default receives a value. -/

/-- A Python `HandleRequest` signature: declared parameter names after
`self`, and whether a `**kwargs` catch-all is present. -/
structure PySignature where
  params : List String
  hasVarKeyword : Bool
deriving DecidableEq, Repr

/-- Whether a keyword-only call with the named arguments binds. -/
def AcceptsKeywordCall (sig : PySignature) (kwargs : List String) : Bool :=
  (kwargs.all fun k => sig.params.contains k || sig.hasVarKeyword) &&
  (sig.params.all fun p => kwargs.contains p)

/-- The keyword set the Pre-Handler uses for the root downstream call,
and that `DownstreamHandlerBase.HandleRequest` declares keyword-only. -/
def standardHandlerKwargs : List String :=
  ["host", "relPath", "pyHandler", "handlerState", "reqState", "terminateEvent"]

/-- Declaration `ConcurrentLimiter.HandleRequest(self, host, relPath, pyHandler, state, terminateEvent)`. -/
def concurrentLimiterSig : PySignature :=
  ⟨["host", "relPath", "pyHandler", "state", "terminateEvent"], false⟩

/-- Declaration `RateLimiter.HandleRequest(self, host, relPath, pyHandler, handlerState, reqState, terminateEvent)`. -/
def rateLimiterSig : PySignature :=
  ⟨standardHandlerKwargs, false⟩

/-- Declaration `IPNetwork.HandleRequest(self, host, relPath, pyHandler, handlerState, reqState, terminateEvent)`. -/
def ipNetworkSig : PySignature :=
  ⟨standardHandlerKwargs, false⟩

/-- Declaration `TLS.HandleRequest(self, host, relPath, pyHandler, handlerState, reqState, terminateEvent)`. -/
def tlsSig : PySignature :=
  ⟨standardHandlerKwargs, false⟩

/-- Declaration `HandlerByPath.HandleRequest(self, host, relPath, pyHandler, handlerState, reqState, terminateEvent)`. -/
def handlerByPathSig : PySignature :=
  ⟨standardHandlerKwargs, false⟩

/-- Declaration `DownstreamHandlerBlockByRate.HandleRequest(self, *, reqState, **kwargs)`. -/
def blockByRateSig : PySignature :=
  ⟨["reqState"], true⟩

/-- Keyword names each stage passes to its configured next stage on the
forwarding path. -/
def concurrentLimiterForwardKwargs : List String :=
  ["host", "relPath", "pyHandler", "state", "terminateEvent"]

/-- The five refactored stages forward the standard keyword set. -/
def standardForwardKwargs : List String :=
  standardHandlerKwargs

/-! Rate limiter (`Server/HTTP/Auth/RateLimiter.py`)

The deque of request timestamps is a list with its head at the deque
front; `time.time()` values are modelled as `Int`. -/

/-- The `while` loop of `_CheckRateLimit`: pop the front while
`now - front > timePeriodSec` (a timestamp exactly `timePeriodSec`
old is kept). -/
def dropExpiredFront (timePeriodSec now : Int) : List Int → List Int
  | [] => []
  | t :: rest =>
    if timePeriodSec < now - t then dropExpiredFront timePeriodSec now rest
    else t :: rest

/-- Method `RateLimiter._CheckRateLimit`: expire the front, reject when the
remaining count has reached `maxReq`, else append `now`. -/
def CheckRateLimit (maxReq : Nat) (timePeriodSec now : Int)
    (reqTimes : List Int) : Bool × List Int :=
  let w := dropExpiredFront timePeriodSec now reqTimes
  if maxReq ≤ w.length then (false, w) else (true, w ++ [now])

/-- Method `RateLimiter.HandleRequest`: response written, whether the
downstream stage was invoked, and the updated window. -/
def RateLimiterHandleRequest (maxReq : Nat) (timePeriodSec now : Int)
    (reqTimes : List Int) : Option (Nat × String) × Bool × List Int :=
  match CheckRateLimit maxReq timePeriodSec now reqTimes with
  | (true, w) => (none, true, w)
  | (false, w) => (some (403, "Forbidden"), false, w)

/-- The window after serving a sequence of requests at the given times,
starting from the empty deque built by the constructor. -/
def runRateRequests (maxReq : Nat) (timePeriodSec : Int)
    (times : List Int) : List Int :=
  times.foldl (fun w now => (CheckRateLimit maxReq timePeriodSec now w).2) []

/-! Rate-based IP blocker (`Server/Utils/DownstreamHandlerBlockByRate.py`)

IP addresses (after `ipaddress.ip_address` parsing and IPv4-mapped
normalisation) are modelled as `Nat`; the network blocklists, which this
handler never mutates, are abstract membership predicates in the
configuration; dictionaries keyed by IP are association lists. -/

/-- Lookup in an association list keyed by IP. -/
def assocGet {β : Type} : List (Nat × β) → Nat → Option β
  | [], _ => none
  | p :: rest, k => if p.1 == k then some p.2 else assocGet rest k

/-- Insert-or-overwrite in an association list keyed by IP. -/
def assocSet {β : Type} (l : List (Nat × β)) (k : Nat) (v : β) : List (Nat × β) :=
  match l with
  | [] => [(k, v)]
  | p :: rest => if p.1 == k then (k, v) :: rest else p :: assocSet rest k v

/-- Deletion from an association list keyed by IP. -/
def assocErase {β : Type} (l : List (Nat × β)) (k : Nat) : List (Nat × β) :=
  match l with
  | [] => []
  | p :: rest => if p.1 == k then rest else p :: assocErase rest k

/-- Static configuration of a `DownstreamHandlerBlockByRate`. -/
structure BBRConfig where
  maxNumRequests : Nat
  timeWindowSec : Int
  savedStateSet : Bool
  netBlocked : Nat → Bool
  globalNetBlocked : Nat → Bool

/-- Mutable state of a `DownstreamHandlerBlockByRate`: the
`BlockedState` host dictionary, the requester window and counter, and
the hosts list most recently serialized to `savedStatePath` (the
JSON-with-tab-indent formatting of `json.dump` is not modelled, only the
serialized content). -/
structure BBRState where
  blockedHosts : List (Nat × Int)
  requesterList : List (Nat × Int)
  requesterCounter : List (Nat × Nat)
  savedFile : Option (List (Nat × Int))

/-- State of a handler just after construction (no saved state loaded). -/
def BBRState.initial : BBRState :=
  ⟨[], [], [], none⟩

/-- Method `BlockedState.IsIpBlocked`: host dictionary, then the two
network lists. -/
def BlockedStateIsIpBlocked (cfg : BBRConfig) (blockedHosts : List (Nat × Int))
    (ip : Nat) : Bool :=
  (assocGet blockedHosts ip).isSome || cfg.netBlocked ip || cfg.globalNetBlocked ip

/-- The expiry loop of `_CheckRequesterRecord`: pop the front of the
requester list while `currentTime - ts > timeWindowSec`, decrementing
the counter of the popped IP and deleting entries that reach zero (the
counter entry of a listed IP is always present in reachable states). -/
def popOldRequesters (timeWindowSec now : Int) :
    List (Nat × Int) → List (Nat × Nat) → List (Nat × Int) × List (Nat × Nat)
  | [], counter => ([], counter)
  | (oldIp, ts) :: rest, counter =>
    if timeWindowSec < now - ts then
      let c := (assocGet counter oldIp).getD 0
      let counter1 :=
        if c - 1 = 0 then assocErase counter oldIp else assocSet counter oldIp (c - 1)
      popOldRequesters timeWindowSec now rest counter1
    else ((oldIp, ts) :: rest, counter)

/-- The in-window count of `ipObj` right after `_CheckRequesterRecord`
has expired the window and appended the current request. -/
def requesterCountAfterAppend (cfg : BBRConfig) (now : Int) (ip : Nat)
    (st : BBRState) : Nat :=
  let (_, counter) :=
    popOldRequesters cfg.timeWindowSec now st.requesterList st.requesterCounter
  (assocGet counter ip).getD 0 + 1

/-- Method `_CheckRequesterRecord`: expire the window, append the
current request, bump the counter of `ip`, and when the new count
strictly exceeds `maxNumRequests` add `ip` to the blocked hosts with the
current timestamp (`BlockedState.AddHost`) and, when `savedStatePath`
is set, write the serialized state (`_WriteSavedState`). -/
def CheckRequesterRecord (cfg : BBRConfig) (now : Int) (ip : Nat)
    (st : BBRState) : BBRState :=
  let (lst, counter) :=
    popOldRequesters cfg.timeWindowSec now st.requesterList st.requesterCounter
  let lst1 := lst ++ [(ip, now)]
  let counter1 := assocSet counter ip ((assocGet counter ip).getD 0 + 1)
  let cnt := (assocGet counter1 ip).getD 0
  if cfg.maxNumRequests < cnt then
    let hosts1 := assocSet st.blockedHosts ip now
    { blockedHosts := hosts1
      requesterList := lst1
      requesterCounter := counter1
      savedFile := if cfg.savedStateSet then some hosts1 else st.savedFile }
  else
    { st with requesterList := lst1, requesterCounter := counter1 }

/-- Method `DownstreamHandlerBlockByRate.IsIpBlocked` for a
successfully parsed IP: read the blocked state, then update the
requester record, then return the earlier read. -/
def BBRIsIpBlocked (cfg : BBRConfig) (now : Int) (st : BBRState)
    (ip : Nat) : Bool × BBRState :=
  let stateCheckRes := BlockedStateIsIpBlocked cfg st.blockedHosts ip
  (stateCheckRes, CheckRequesterRecord cfg now ip st)

/-- Observable behaviour of one `DownstreamHandlerBlockByRate.HandleRequest`
call: the updated state, whether the downstream handler was invoked, and
whether a response was written (the method writes none on any path). -/
structure BBRHandleResult where
  state : BBRState
  downstreamInvoked : Bool
  responseWritten : Bool

/-- Method `DownstreamHandlerBlockByRate.HandleRequest`.  The
`clientIP` argument models `reqState.get("clientIP", None)` followed by
`ipaddress.ip_address` parsing: `none` when the key is absent (or maps
to `None`), `some none` when present but unparseable (blocked without
touching the requester record), `some (some ip)` otherwise. -/
def BBRHandleRequest (cfg : BBRConfig) (now : Int) (st : BBRState)
    (clientIP : Option (Option Nat)) : BBRHandleResult :=
  match clientIP with
  | none => ⟨st, false, false⟩
  | some none => ⟨st, false, false⟩
  | some (some ip) =>
    match BBRIsIpBlocked cfg now st ip with
    | (true, st1) => ⟨st1, false, false⟩
    | (false, st1) => ⟨st1, true, false⟩

/-! TLS mutual-auth chain verifier (`Server/HTTPS/Auth/TLS.py`)

Certificates carry the fields the verifier inspects.  Names (subject
and issuer distinguished names) and SubjectPublicKeyInfo DER bytes are
modelled as `Nat`; the public-key class hierarchy of `cryptography` is
the `KeyType` tag.  The cryptographic `verify` calls are abstracted by
a parameter `sigValid pubKey subjCert`, true when the signature of
`subjCert` over its `tbs_certificate_bytes` verifies under `pubKey`. -/

/-- Public-key classes dispatched on by `_VerifyCertSignature`. -/
inductive KeyType
  | ed25519
  | ecdsa
  | rsa
  | other
deriving DecidableEq, Repr

/-- A public key: its class and its SubjectPublicKeyInfo DER bytes
(`_PubKeyToRawBytes`). -/
structure PubKey where
  kt : KeyType
  raw : Nat
deriving DecidableEq, Repr

/-- An X.509 certificate, reduced to the fields the verifier reads. -/
structure Cert where
  subject : Nat
  issuer : Nat
  pubKey : PubKey
  notBefore : Int
  notAfter : Int
deriving DecidableEq, Repr

/-- Method `TLS._VerifyCertSignature`: dispatch on the issuer key class;
each supported class calls the corresponding `verify`, which raises
(`.error`) on an invalid signature.  A key of any other class matches no
`isinstance` branch, so the function falls through and returns `None`
(`.ok`) without verifying anything. -/
def VerifyCertSignature (sigValid : PubKey → Cert → Bool)
    (pubKey : PubKey) (subjCert : Cert) : Except String Unit :=
  match pubKey.kt with
  | .ed25519 => if sigValid pubKey subjCert then .ok () else .error "InvalidSignature"
  | .ecdsa => if sigValid pubKey subjCert then .ok () else .error "InvalidSignature"
  | .rsa => if sigValid pubKey subjCert then .ok () else .error "InvalidSignature"
  | .other => .ok ()

/-- Method `TLS._VerifyCertificate`: signature check (exceptions become
a failure), then the validity window `now ∈ [notBefore, notAfter]`. -/
def VerifyCertificate (sigValid : PubKey → Cert → Bool) (now : Int)
    (subjCert issuerCert : Cert) : Bool × Option String :=
  match VerifyCertSignature sigValid issuerCert.pubKey subjCert with
  | .error _ => (false, some "Failed to verify the certificate signature")
  | .ok _ =>
    if now < subjCert.notBefore ∨ subjCert.notAfter < now then
      (false, some "The certificate is not in the valid time range.")
    else (true, none)

/-- Method `TLS._GetCertOfNextLevel`: scan the chain from its end; a
cert whose raw public key equals the trusted one is removed as
redundant; a cert issued by the trusted cert whose `_VerifyCertificate`
check passes is removed and returned as the next level; otherwise the
scan continues toward the front, and an exhausted scan reports an error.
The recursion tries the tail (the later, scanned-first elements) before
the head. -/
def GetCertOfNextLevel (sigValid : PubKey → Cert → Bool) (now : Int) :
    List Cert → Cert → List Cert × Option Cert × Option String
  | [], _ => ([], none, some "Cannot find the cert of next level.")
  | c :: rest, trustedCert =>
    match GetCertOfNextLevel sigValid now rest trustedCert with
    | (rest1, nextCert, none) => (c :: rest1, nextCert, none)
    | (_, _, some _) =>
      if c.pubKey == trustedCert.pubKey then
        (rest, none, none)
      else if c.issuer == trustedCert.subject
          && (VerifyCertificate sigValid now c trustedCert).1 then
        (rest, some c, none)
      else
        (c :: rest, none, some "Cannot find the cert of next level.")

/-- Termination measure of the `_VerifyCertChain` loop: a successful
`_GetCertOfNextLevel` removes exactly one certificate. -/
theorem GetCertOfNextLevel_length (sigValid : PubKey → Cert → Bool) (now : Int) :
    ∀ (chain : List Cert) (trustedCert : Cert),
      (GetCertOfNextLevel sigValid now chain trustedCert).2.2 = none →
      (GetCertOfNextLevel sigValid now chain trustedCert).1.length + 1 = chain.length := by
  intro chain
  induction chain with
  | nil =>
    intro trustedCert h
    simp [GetCertOfNextLevel] at h
  | cons c rest ih =>
    intro trustedCert h
    rcases hrec : GetCertOfNextLevel sigValid now rest trustedCert with ⟨rest1, nextCert, err⟩
    simp only [GetCertOfNextLevel, hrec] at h ⊢
    cases err with
    | none =>
      have ih1 := ih trustedCert (by rw [hrec])
      rw [hrec] at ih1
      simp only [List.length_cons]
      simp at ih1 ⊢
      omega
    | some e =>
      simp only at h ⊢
      by_cases h1 : c.pubKey == trustedCert.pubKey
      · simp [h1]
      · by_cases h2 : (c.issuer == trustedCert.subject
            && (VerifyCertificate sigValid now c trustedCert).1) = true
        · simp [h1, h2]
        · simp [h1, h2] at h

/-- The loop of `TLS._VerifyCertChain`, with the accumulated verified
chain (`verifiedChain` of the source, child certs inserted at the
front) and the current trusted cert. -/
def VerifyCertChainGo (sigValid : PubKey → Cert → Bool) (now : Int)
    (certChain : List Cert) (trustedCert : Cert) (verified : List Cert) :
    List Cert × Option String :=
  match certChain with
  | [] => (verified, none)
  | c :: rest =>
    match hstep : GetCertOfNextLevel sigValid now (c :: rest) trustedCert with
    | (remaining, none, none) =>
      VerifyCertChainGo sigValid now remaining trustedCert verified
    | (remaining, some nextCert, none) =>
      VerifyCertChainGo sigValid now remaining nextCert (nextCert :: verified)
    | (_, _, some errMsg) => ([], some errMsg)
termination_by certChain.length
decreasing_by
  · have hl := GetCertOfNextLevel_length sigValid now (c :: rest) trustedCert (by rw [hstep])
    rw [hstep] at hl
    simp only [List.length_cons] at hl ⊢
    simp at hl
    omega
  · have hl := GetCertOfNextLevel_length sigValid now (c :: rest) trustedCert (by rw [hstep])
    rw [hstep] at hl
    simp only [List.length_cons] at hl ⊢
    simp at hl
    omega

/-- Method `TLS._VerifyCertChain`: run the loop from the matched trust
anchor and an empty verified chain. -/
def VerifyCertChain (sigValid : PubKey → Cert → Bool) (now : Int)
    (certChain : List Cert) (trustedCert : Cert) : List Cert × Option String :=
  VerifyCertChainGo sigValid now certChain trustedCert []

/-- The adjacency property of C1 for one pair: issuance linkage plus a
passing `_VerifyCertificate` check of the child against the parent. -/
def ChainLinkOK (sigValid : PubKey → Cert → Bool) (now : Int)
    (child parent : Cert) : Bool :=
  child.issuer == parent.subject && (VerifyCertificate sigValid now child parent).1

/-- Every adjacent pair of a certificate list satisfies `ChainLinkOK`. -/
def ChainAdjOK (sigValid : PubKey → Cert → Bool) (now : Int) : List Cert → Bool
  | [] => true
  | [_] => true
  | a :: b :: rest => ChainLinkOK sigValid now a b && ChainAdjOK sigValid now (b :: rest)

/-- Adjacent pairs of a list, in order. -/
def adjPairs {α : Type} : List α → List (α × α)
  | [] => []
  | [_] => []
  | a :: b :: rest => (a, b) :: adjPairs (b :: rest)

/-! Concrete instances used by witnesses and counterexamples. -/

/-- A trust anchor: self-named Ed25519 certificate. -/
def certR : Cert :=
  ⟨0, 0, ⟨.ed25519, 100⟩, -1000, 1000⟩

/-- An intermediate certificate issued by `certR`. -/
def certA : Cert :=
  ⟨1, 0, ⟨.ed25519, 101⟩, -1000, 1000⟩

/-- A leaf certificate issued by `certA`. -/
def certL : Cert :=
  ⟨2, 1, ⟨.ed25519, 102⟩, -1000, 1000⟩

/-- A signature oracle for the example public-key infrastructure: the
key of `certR` signs `certA`, and the key of `certA` signs `certL`. -/
def svEx (k : PubKey) (c : Cert) : Bool :=
  (k.raw == 100 && c == certA) || (k.raw == 101 && c == certL)

/-- A signature oracle under which no signature ever verifies. -/
def svNone (_ : PubKey) (_ : Cert) : Bool :=
  false

/-- A trust anchor whose public key has an unsupported class. -/
def certO : Cert :=
  ⟨10, 10, ⟨.other, 50⟩, -1000, 1000⟩

/-- A certificate claiming issuance by `certO`. -/
def certS : Cert :=
  ⟨11, 10, ⟨.ed25519, 51⟩, -1000, 1000⟩

/-- An example `BlockByRate` configuration: one request per 600-second
window, a saved-state path configured, no blocked networks. -/
def cfgExample : BBRConfig :=
  ⟨1, 600, true, fun _ => false, fun _ => false⟩

/-- The example handler state after one request from IP 7 at time 0. -/
def stExample : BBRState :=
  CheckRequesterRecord cfgExample 0 7 BBRState.initial

/-- An example routing table: key `""` with a GET handler 0, key `/a`
with a GET handler 1. -/
def pathMapExample : List Char → Option (String → Option Nat) :=
  fun key =>
    if key = [] then some fun m => if m = "GET" then some 0 else none
    else if key = '/' :: ['a'] then some fun m => if m = "GET" then some 1 else none
    else none

/-! Theorems.  Helper lemmas come first; each claim is settled by one
theorem carrying the claim identifier in its doc comment. -/

/-- Unfolding of the chain-walk loop on the empty chain. -/
theorem VerifyCertChainGo_nil (sigValid : PubKey → Cert → Bool) (now : Int)
    (trustedCert : Cert) (verified : List Cert) :
    VerifyCertChainGo sigValid now [] trustedCert verified = (verified, none) := by
  rw [VerifyCertChainGo]

/-- Unfolding of the chain-walk loop when the scan removes a redundant
copy of the trusted certificate. -/
theorem VerifyCertChainGo_step_redundant (sigValid : PubKey → Cert → Bool)
    (now : Int) (c : Cert) (rest : List Cert) (trustedCert : Cert)
    (remaining : List Cert) (verified : List Cert)
    (hstep : GetCertOfNextLevel sigValid now (c :: rest) trustedCert
      = (remaining, none, none)) :
    VerifyCertChainGo sigValid now (c :: rest) trustedCert verified
      = VerifyCertChainGo sigValid now remaining trustedCert verified := by
  conv_lhs => rw [VerifyCertChainGo]
  split
  next r heq =>
    rw [hstep] at heq
    injection heq with e1 e2
    subst e1
    rfl
  next r nc heq =>
    rw [hstep] at heq
    simp at heq
  next a b e heq =>
    rw [hstep] at heq
    simp at heq

/-- Unfolding of the chain-walk loop when the scan finds the next-level
certificate. -/
theorem VerifyCertChainGo_step_found (sigValid : PubKey → Cert → Bool)
    (now : Int) (c : Cert) (rest : List Cert) (trustedCert : Cert)
    (remaining : List Cert) (nc : Cert) (verified : List Cert)
    (hstep : GetCertOfNextLevel sigValid now (c :: rest) trustedCert
      = (remaining, some nc, none)) :
    VerifyCertChainGo sigValid now (c :: rest) trustedCert verified
      = VerifyCertChainGo sigValid now remaining nc (nc :: verified) := by
  conv_lhs => rw [VerifyCertChainGo]
  split
  next r heq =>
    rw [hstep] at heq
    simp at heq
  next r nc2 heq =>
    rw [hstep] at heq
    injection heq with e1 e2
    injection e2 with e2a e2b
    injection e2a with e2a
    subst e1
    subst e2a
    rfl
  next a b e heq =>
    rw [hstep] at heq
    simp at heq

/-- A successful `_GetCertOfNextLevel` returns a certificate linked to
the trusted certificate: issuance match plus a passing
`_VerifyCertificate` check. -/
theorem GetCertOfNextLevel_found (sigValid : PubKey → Cert → Bool) (now : Int) :
    ∀ (chain : List Cert) (trustedCert : Cert) (remaining : List Cert) (nc : Cert),
      GetCertOfNextLevel sigValid now chain trustedCert = (remaining, some nc, none) →
      ChainLinkOK sigValid now nc trustedCert = true := by
  intro chain
  induction chain with
  | nil =>
    intro trustedCert remaining nc h
    simp [GetCertOfNextLevel] at h
  | cons c rest ih =>
    intro trustedCert remaining nc h
    rcases hrec : GetCertOfNextLevel sigValid now rest trustedCert with ⟨rest1, nextCert, err⟩
    simp only [GetCertOfNextLevel, hrec] at h
    cases err with
    | none =>
      simp at h
      exact ih trustedCert rest1 nc (by rw [hrec, h.2])
    | some e =>
      simp only at h
      by_cases h1 : c.pubKey == trustedCert.pubKey
      · simp [h1] at h
      · by_cases h2 : (c.issuer == trustedCert.subject
            && (VerifyCertificate sigValid now c trustedCert).1) = true
        · simp [h1, h2] at h
          obtain ⟨h3, rfl⟩ := h
          simpa [ChainLinkOK] using h2
        · simp [h1, h2] at h

/-- Soundness invariant of the chain-walk loop: starting from an
accumulated verified list whose extension by `tailL` is adjacency-sound
and headed by the current trusted certificate, the loop only produces
adjacency-sound extensions. -/
theorem VerifyCertChainGo_sound (sigValid : PubKey → Cert → Bool) (now : Int)
    (certChain : List Cert) (trustedCert : Cert) (verified : List Cert) :
    ∀ (tailL w : List Cert),
      VerifyCertChainGo sigValid now certChain trustedCert verified = (w, none) →
      ChainAdjOK sigValid now (verified ++ tailL) = true →
      (verified ++ tailL).head? = some trustedCert →
      ChainAdjOK sigValid now (w ++ tailL) = true := by
  induction certChain, trustedCert, verified using VerifyCertChainGo.induct sigValid now with
  | case1 trustedCert verified =>
    intro tailL w h hadj hhead
    simp [VerifyCertChainGo] at h
    rw [← h]
    exact hadj
  | case2 trustedCert verified c rest remaining hstep ih =>
    intro tailL w h hadj hhead
    rw [VerifyCertChainGo_step_redundant sigValid now c rest trustedCert remaining verified hstep] at h
    exact ih tailL w h hadj hhead
  | case3 trustedCert verified c rest remaining nextCert hstep ih =>
    intro tailL w h hadj hhead
    rw [VerifyCertChainGo_step_found sigValid now c rest trustedCert remaining nextCert verified hstep] at h
    have hlink := GetCertOfNextLevel_found sigValid now (c :: rest) trustedCert remaining nextCert hstep
    apply ih tailL w h
    · rcases hv : verified ++ tailL with _ | ⟨a, l⟩
      · rw [hv] at hhead
        simp at hhead
      · rw [hv] at hadj hhead
        simp at hhead
        subst hhead
        rw [List.cons_append, hv]
        simp [ChainAdjOK, hadj, hlink]
    · simp
  | case4 trustedCert verified c rest a b e hstep =>
    intro tailL w h hadj hhead
    rw [VerifyCertChainGo] at h
    split at h
    next r heq =>
      rw [hstep] at heq
      simp at heq
    next r nc heq =>
      rw [hstep] at heq
      simp at heq
    next a b e2 heq =>
      simp at h

/-- An adjacency-sound list has `ChainLinkOK` on each of its adjacent
pairs. -/
theorem ChainAdjOK_adjPairs (sigValid : PubKey → Cert → Bool) (now : Int) :
    ∀ (l : List Cert), ChainAdjOK sigValid now l = true →
      ∀ p ∈ adjPairs l, ChainLinkOK sigValid now p.1 p.2 = true := by
  intro l
  induction l with
  | nil =>
    intro h p hp
    simp [adjPairs] at hp
  | cons a l ih =>
    cases l with
    | nil =>
      intro h p hp
      simp [adjPairs] at hp
    | cons b rest =>
      intro h p hp
      simp only [ChainAdjOK, Bool.and_eq_true] at h
      simp only [adjPairs, List.mem_cons] at hp
      rcases hp with rfl | hp
      · exact h.1
      · exact ih h.2 p hp

/-- A passing `_VerifyCertificate` check means the cryptographic
signature really verified whenever the issuer key class is supported. -/
theorem VerifyCertificate_sig_genuine (sigValid : PubKey → Cert → Bool)
    (now : Int) (subjCert issuerCert : Cert)
    (hv : (VerifyCertificate sigValid now subjCert issuerCert).1 = true)
    (hkt : issuerCert.pubKey.kt ≠ KeyType.other) :
    sigValid issuerCert.pubKey subjCert = true := by
  unfold VerifyCertificate at hv
  rcases hs : VerifyCertSignature sigValid issuerCert.pubKey subjCert with u | u
  · rw [hs] at hv
    simp at hv
  · unfold VerifyCertSignature at hs
    by_cases hsv : sigValid issuerCert.pubKey subjCert
    · exact hsv
    · cases hk : issuerCert.pubKey.kt
      · rw [hk] at hs
        simp [hsv] at hs
      · rw [hk] at hs
        simp [hsv] at hs
      · rw [hk] at hs
        simp [hsv] at hs
      · exact absurd hk hkt

/-- Evaluation of the chain walk on the reordered example chain
`[certA, certL]` (intermediate before leaf): the walk accepts it and
returns the reordered verified chain `[certL, certA]`. -/
theorem VerifyCertChain_reordered_eval :
    VerifyCertChain svEx 0 [certA, certL] certR = ([certL, certA], none) := by
  show VerifyCertChainGo svEx 0 [certA, certL] certR [] = ([certL, certA], none)
  rw [VerifyCertChainGo_step_found svEx 0 certA [certL] certR [certL] certA [] (by decide)]
  rw [VerifyCertChainGo_step_found svEx 0 certL [] certA [] certL [certA] (by decide)]
  exact VerifyCertChainGo_nil svEx 0 certL [certL, certA]

/-- Evaluation of the chain walk on `[certS]` against the trust anchor
`certO`, whose key class is unsupported, under the oracle that rejects
every signature: the chain is accepted anyway. -/
theorem VerifyCertChain_unsupported_eval :
    VerifyCertChain svNone 0 [certS] certO = ([certS], none) := by
  show VerifyCertChainGo svNone 0 [certS] certO [] = ([certS], none)
  rw [VerifyCertChainGo_step_found svNone 0 certS [] certO [] certS [] (by decide)]
  exact VerifyCertChainGo_nil svNone 0 certS [certS]

/-- C1 (amended).  Whenever the chain walk of `TLS._VerifyCertChain`
accepts (returns a verified chain and no error), every adjacent pair
`(cᵢ, cᵢ₊₁)` of the verified sequence extended by the trust anchor
satisfies `cᵢ.issuer = cᵢ₊₁.subject` together with a passing
`_VerifyCertificate` check of `cᵢ` against `cᵢ₊₁`; that check implies
genuine signature validation under the public key of `cᵢ₊₁` whenever
that key has a supported type (Ed25519, ECDSA, RSA). -/
theorem tls_verified_chain_adjacent_pairs (sigValid : PubKey → Cert → Bool)
    (now : Int) (certChain : List Cert) (anchor : Cert) (vc : List Cert)
    (hacc : VerifyCertChain sigValid now certChain anchor = (vc, none)) :
    ∀ p ∈ adjPairs (vc ++ [anchor]),
      p.1.issuer = p.2.subject ∧
      (VerifyCertificate sigValid now p.1 p.2).1 = true ∧
      (p.2.pubKey.kt ≠ KeyType.other → sigValid p.2.pubKey p.1 = true) := by
  have hacc2 : VerifyCertChainGo sigValid now certChain anchor [] = (vc, none) := hacc
  have hadj : ChainAdjOK sigValid now (vc ++ [anchor]) = true :=
    VerifyCertChainGo_sound sigValid now certChain anchor [] [anchor] vc hacc2 rfl rfl
  intro p hp
  have hlink := ChainAdjOK_adjPairs sigValid now (vc ++ [anchor]) hadj p hp
  simp only [ChainLinkOK, Bool.and_eq_true, beq_iff_eq] at hlink
  exact ⟨hlink.1, hlink.2,
    fun hkt => VerifyCertificate_sig_genuine sigValid now p.1 p.2 hlink.2 hkt⟩

/-- C1 witness: the adjacency conclusion instantiated on the concrete
accepted chain `[certA, certL]` with anchor `certR`, at the verified
pair `(certL, certA)`. -/
theorem tls_verified_chain_adjacent_pairs_witness :
    certL.issuer = certA.subject ∧
    (VerifyCertificate svEx 0 certL certA).1 = true ∧
    (certA.pubKey.kt ≠ KeyType.other → svEx certA.pubKey certL = true) :=
  tls_verified_chain_adjacent_pairs svEx 0 [certA, certL] certR [certL, certA]
    VerifyCertChain_reordered_eval (certL, certA) (by decide)

/-- C1 counterexample.  The verifier is not sensitive to the input
order: the chain `[certA, certL]` has the single adjacent input pair
`(certA, certL)`, which lacks the issuer-subject link, yet the chain is
accepted (reordered to `[certL, certA]`).  Moreover signature validity
of the accepted pairs is not genuine for unsupported key types: with
the everywhere-false signature oracle `svNone` and the `other`-typed
anchor `certO`, the chain `[certS]` is still accepted. -/
theorem tls_chain_order_counterexample :
    adjPairs [certA, certL] = [(certA, certL)] ∧
    certA.issuer ≠ certL.subject ∧
    VerifyCertChain svEx 0 [certA, certL] certR = ([certL, certA], none) ∧
    certO.pubKey.kt = KeyType.other ∧
    svNone certO.pubKey certS = false ∧
    VerifyCertChain svNone 0 [certS] certO = ([certS], none) :=
  ⟨by decide, by decide, VerifyCertChain_reordered_eval, rfl, rfl,
    VerifyCertChain_unsupported_eval⟩

/-- C2 (code bug).  `TLS._VerifyCertSignature` has no `else` branch: an
issuer public key of an unsupported class (modelled by `KeyType.other`)
matches no `isinstance` case, so the method returns `None` without
raising, `_VerifyCertificate` reports success, and the whole chain walk
accepts — even under a signature oracle that rejects every signature.
The claim (and the spec) say an unsupported-algorithm error is raised,
which would map to a 403. -/
theorem tls_unsupported_key_type_accepted :
    certO.pubKey.kt = KeyType.other ∧
    svNone certO.pubKey certS = false ∧
    VerifyCertSignature svNone certO.pubKey certS = Except.ok () ∧
    VerifyCertificate svNone 0 certS certO = (true, none) ∧
    VerifyCertChain svNone 0 [certS] certO = ([certS], none) :=
  ⟨rfl, rfl, rfl, rfl, VerifyCertChain_unsupported_eval⟩

/-- C3 (code bug).  An unparseable `Host` header does not get a 400:
`ParseHostField` raises `ValueError` outside every `try` of
`_HandleOneRequest`, and `handle_one_request` catches only
`TimeoutError`, so the exception escapes and no response is written.
The contrast case of a missing `Host` header does get `send_error(400)`,
as does the rest of the validation pipeline. -/
theorem preHandler_unparseable_host_uncaught :
    ParseHostField (fun _ => false) "bad_host".toList 80 = none ∧
    HandleOneRequest (fun _ => false) ["GET", "POST"] 80 "GET"
      (some "bad_host".toList) "/".toList = PreOutcome.uncaughtException ∧
    HandleOneRequest (fun _ => false) ["GET", "POST"] 80 "GET" none "/".toList
      = PreOutcome.sendError 400 := by
  decide

/-- C4 (code bug).  Five stages declare the standard keyword set
`host, relPath, pyHandler, handlerState, reqState, terminateEvent`
mandated by `DownstreamHandlerBase` and used by the Pre-Handler, but
`ConcurrentLimiter.HandleRequest` still declares the pre-refactor
parameter `state`, so the standard keyword call does not bind (a
`TypeError` at dispatch), and its forwarding call also uses `state`
instead of the standard keywords. -/
theorem handler_chain_signature_mismatch :
    AcceptsKeywordCall concurrentLimiterSig standardHandlerKwargs = false ∧
    AcceptsKeywordCall rateLimiterSig standardHandlerKwargs = true ∧
    AcceptsKeywordCall ipNetworkSig standardHandlerKwargs = true ∧
    AcceptsKeywordCall tlsSig standardHandlerKwargs = true ∧
    AcceptsKeywordCall handlerByPathSig standardHandlerKwargs = true ∧
    AcceptsKeywordCall blockByRateSig standardHandlerKwargs = true ∧
    concurrentLimiterForwardKwargs ≠ standardForwardKwargs := by
  decide

/-- C5.  `ConcurrentLimiter.HandleRequest` answers 403 "Forbidden"
without invoking the downstream stage when the non-blocking acquire
fails; on success it invokes the downstream stage and releases the
permit on every exit path (the `finally` block), including when the
downstream raises, so each call releases exactly as many permits as it
acquired and the permit count is restored. -/
theorem concurrentLimiter_permit_discipline (available : Nat)
    (downstreamRaises : Bool) :
    (available = 0 →
      (ConcurrentLimiterHandleRequest available downstreamRaises).response
          = some (403, "Forbidden") ∧
      (ConcurrentLimiterHandleRequest available downstreamRaises).downstreamInvoked
          = false) ∧
    (available ≠ 0 →
      (ConcurrentLimiterHandleRequest available downstreamRaises).downstreamInvoked
          = true ∧
      (ConcurrentLimiterHandleRequest available downstreamRaises).semAfter
          = available) ∧
    (ConcurrentLimiterHandleRequest available downstreamRaises).released
      = (ConcurrentLimiterHandleRequest available downstreamRaises).acquired ∧
    ((ConcurrentLimiterHandleRequest available downstreamRaises).exceptionPropagated
        = true →
      (ConcurrentLimiterHandleRequest available downstreamRaises).released = true) := by
  by_cases h : available = 0 <;>
    simp [ConcurrentLimiterHandleRequest, semTryAcquire, semRelease, h] <;>
    omega

/-- C5 witness: a full limiter rejects with 403; a limiter with two
permits whose downstream raises still invokes it, restores the permit
count and balances release with acquire. -/
theorem concurrentLimiter_permit_discipline_witness :
    (ConcurrentLimiterHandleRequest 0 false).response = some (403, "Forbidden") ∧
    (ConcurrentLimiterHandleRequest 2 true).downstreamInvoked = true ∧
    (ConcurrentLimiterHandleRequest 2 true).semAfter = 2 ∧
    (ConcurrentLimiterHandleRequest 2 true).released = true :=
  ⟨((concurrentLimiter_permit_discipline 0 false).1 rfl).1,
    ((concurrentLimiter_permit_discipline 2 true).2.1 (by decide)).1,
    ((concurrentLimiter_permit_discipline 2 true).2.1 (by decide)).2,
    (concurrentLimiter_permit_discipline 2 true).2.2.2 rfl⟩

/-- C10.  When `reqState` carries no usable `clientIP`
(`reqState.get` returns `None`), `DownstreamHandlerBlockByRate.HandleRequest`
logs and returns: the downstream handler is not invoked, no response is
written, and the state (including all blocking records) is untouched. -/
theorem blockByRate_missing_clientIP_drops (cfg : BBRConfig) (now : Int)
    (st : BBRState) :
    BBRHandleRequest cfg now st none
      = { state := st, downstreamInvoked := false, responseWritten := false } :=
  rfl

/-- Expiring the front of the window never lengthens it. -/
theorem dropExpiredFront_length_le (timePeriodSec now : Int) :
    ∀ l : List Int, (dropExpiredFront timePeriodSec now l).length ≤ l.length := by
  intro l
  induction l with
  | nil => simp [dropExpiredFront]
  | cons t rest ih =>
    by_cases h : timePeriodSec < now - t <;>
      simp [dropExpiredFront, h] <;> omega

/-- One acquire attempt preserves the window bound `maxReq`. -/
theorem CheckRateLimit_window_le (maxReq : Nat) (timePeriodSec now : Int)
    (w : List Int) (hw : w.length ≤ maxReq) :
    (CheckRateLimit maxReq timePeriodSec now w).2.length ≤ maxReq := by
  unfold CheckRateLimit
  have hd := dropExpiredFront_length_le timePeriodSec now w
  by_cases h : maxReq ≤ (dropExpiredFront timePeriodSec now w).length
  · simp [h]
    omega
  · simp [h]
    omega

/-- Every reachable window (a fold of acquire attempts from the empty
deque) has at most `maxReq` entries. -/
theorem runRateRequests_le (maxReq : Nat) (timePeriodSec : Int)
    (times : List Int) :
    (runRateRequests maxReq timePeriodSec times).length ≤ maxReq := by
  have main : ∀ (ts : List Int) (w : List Int), w.length ≤ maxReq →
      (ts.foldl (fun w now => (CheckRateLimit maxReq timePeriodSec now w).2) w).length
        ≤ maxReq := by
    intro ts
    induction ts with
    | nil => intro w hw; simpa using hw
    | cons t ts ih =>
      intro w hw
      simpa using ih _ (CheckRateLimit_window_le maxReq timePeriodSec t w hw)
  simpa [runRateRequests] using main times [] (by simp)

/-- C6.  On each `_CheckRateLimit` call: timestamps strictly older than
`timePeriodSec` are popped from the front while one exactly
`timePeriodSec` old is kept; when the remaining count has reached
`maxReq` the call rejects without appending and `HandleRequest` writes
403 "Forbidden" without forwarding; otherwise `now` is appended and the
request is forwarded.  The window size stays at most `maxReq` after
every acquire attempt, hence for every reachable window. -/
theorem rateLimiter_window_discipline (maxReq : Nat)
    (timePeriodSec now : Int) (reqTimes : List Int) :
    (∀ t rest, now - t = timePeriodSec →
      dropExpiredFront timePeriodSec now (t :: rest) = t :: rest) ∧
    ((CheckRateLimit maxReq timePeriodSec now reqTimes).1 = false →
      (CheckRateLimit maxReq timePeriodSec now reqTimes).2
          = dropExpiredFront timePeriodSec now reqTimes ∧
      maxReq ≤ (dropExpiredFront timePeriodSec now reqTimes).length ∧
      (RateLimiterHandleRequest maxReq timePeriodSec now reqTimes).1
          = some (403, "Forbidden") ∧
      (RateLimiterHandleRequest maxReq timePeriodSec now reqTimes).2.1 = false) ∧
    ((CheckRateLimit maxReq timePeriodSec now reqTimes).1 = true →
      (CheckRateLimit maxReq timePeriodSec now reqTimes).2
          = dropExpiredFront timePeriodSec now reqTimes ++ [now] ∧
      (RateLimiterHandleRequest maxReq timePeriodSec now reqTimes).2.1 = true) ∧
    (reqTimes.length ≤ maxReq →
      (CheckRateLimit maxReq timePeriodSec now reqTimes).2.length ≤ maxReq) ∧
    (∀ times, (runRateRequests maxReq timePeriodSec times).length ≤ maxReq) := by
  refine ⟨?_, ?_, ?_, ?_, ?_⟩
  · intro t rest h
    rw [dropExpiredFront, h]
    simp
  · intro hrej
    unfold CheckRateLimit at hrej ⊢
    unfold RateLimiterHandleRequest CheckRateLimit
    by_cases h : maxReq ≤ (dropExpiredFront timePeriodSec now reqTimes).length
    · simp [h]
    · simp [h] at hrej
  · intro hacc
    unfold CheckRateLimit at hacc ⊢
    unfold RateLimiterHandleRequest CheckRateLimit
    by_cases h : maxReq ≤ (dropExpiredFront timePeriodSec now reqTimes).length
    · simp [h] at hacc
    · simp [h]
  · exact fun hw => CheckRateLimit_window_le maxReq timePeriodSec now reqTimes hw
  · exact fun times => runRateRequests_le maxReq timePeriodSec times

/-- C6 witness: with `maxReq = 1`, `timePeriodSec = 600`, a window
holding one in-window timestamp rejects the call at time 10 with 403
and keeps the window unchanged; a boundary timestamp exactly 600 old is
kept; the reachable-window bound instantiates at a request trace. -/
theorem rateLimiter_window_discipline_witness :
    dropExpiredFront 600 10 [-590] = [-590] ∧
    (CheckRateLimit 1 600 10 [5]).2 = dropExpiredFront 600 10 [5] ∧
    (RateLimiterHandleRequest 1 600 10 [5]).1 = some (403, "Forbidden") ∧
    (runRateRequests 1 600 [0, 1, 2]).length ≤ 1 :=
  ⟨(rateLimiter_window_discipline 1 600 10 [-590]).1 (-590) [] (by decide),
    ((rateLimiter_window_discipline 1 600 10 [5]).2.1 (by decide)).1,
    ((rateLimiter_window_discipline 1 600 10 [5]).2.1 (by decide)).2.2.1,
    (rateLimiter_window_discipline 1 600 10 [5]).2.2.2.2 [0, 1, 2]⟩

/-- Without a port group, `_DeterminePortNum` yields the default port. -/
theorem DeterminePortNum_default (p : Option (List Char)) (dp : Nat)
    (hp : p.isSome = false) : DeterminePortNum p dp = dp := by
  cases p with
  | none => rfl
  | some ds => simp at hp

/-- C9 (amended).  Every `HostField` built by `ParseHostField` for a
host string without an explicit `:port` suffix carries the
caller-supplied default port (the listening port).  No range check is
applied to an explicit port, so ports outside `[1, 65535]` can be
produced (see the counterexample). -/
theorem parseHostField_default_port (ipv6Valid : List Char → Bool)
    (host : List Char) (defaultPort : Nat) (out : HostField)
    (h : ParseHostField ipv6Valid host defaultPort = some out)
    (hnp : out.portExplicit = false) : out.port = defaultPort := by
  unfold ParseHostField at h
  rcases hsp : splitFirstColon host with ⟨body, pg⟩
  rw [hsp] at h
  simp only at h
  split at h
  · injection h with h1
    subst h1
    exact DeterminePortNum_default pg defaultPort hnp
  · split at h
    · split at h
      · injection h with h1
        subst h1
        exact DeterminePortNum_default pg defaultPort hnp
      · simp at h
    · split at h
      · split at h
        · split at h
          · split at h
            · injection h with h1
              subst h1
              exact DeterminePortNum_default _ defaultPort hnp
            · simp at h
          · simp at h
        · simp at h
      · simp at h

/-- C9 witness: `www.example.com` carries no explicit port and inherits
the default port 443. -/
theorem parseHostField_default_port_witness :
    (⟨.domain, "www.example.com".toList, 443, false⟩ : HostField).port = 443 :=
  parseHostField_default_port (fun _ => false) "www.example.com".toList 443
    ⟨.domain, "www.example.com".toList, 443, false⟩ (by decide) (by decide)

/-- C9 counterexample: `www.example.com:0` parses successfully with
port 0, outside the claimed range `[1, 65535]` (the parser applies no
range check to the digits of the port suffix). -/
theorem parseHostField_port_zero_counterexample :
    ParseHostField (fun _ => false) "www.example.com:0".toList 443
      = some ⟨.domain, "www.example.com".toList, 0, true⟩ ∧
    ¬(1 ≤ (0 : Nat)) := by
  decide

/-- Lookup after insert-or-overwrite at the same key. -/
theorem assocGet_assocSet_self {β : Type} (l : List (Nat × β)) (k : Nat) (v : β) :
    assocGet (assocSet l k v) k = some v := by
  induction l with
  | nil => simp [assocSet, assocGet]
  | cons p rest ih =>
    by_cases h : p.1 = k
    · simp [assocSet, assocGet, h]
    · simp [assocSet, assocGet, h, ih]

/-- C7.  When a request makes the in-window count of an IP strictly
exceed `maxNumRequests`, `_CheckRequesterRecord` records the IP in the
blocked hosts with the current timestamp; when a saved-state path is
configured, the serialized state written to the file contains that
entry; and any later request from that IP is blocked before the
downstream handler (the blocked-state read precedes the record update,
and blocked hosts are never removed by the handler). -/
theorem blockByRate_exceed_blocks (cfg : BBRConfig) (now : Int) (ip : Nat)
    (st : BBRState)
    (hex : cfg.maxNumRequests < requesterCountAfterAppend cfg now ip st) :
    assocGet (CheckRequesterRecord cfg now ip st).blockedHosts ip = some now ∧
    (cfg.savedStateSet = true →
      (CheckRequesterRecord cfg now ip st).savedFile
        = some (CheckRequesterRecord cfg now ip st).blockedHosts) ∧
    (∀ now2 : Int,
      (BBRHandleRequest cfg now2 (CheckRequesterRecord cfg now ip st)
        (some (some ip))).downstreamInvoked = false) := by
  rcases hp : popOldRequesters cfg.timeWindowSec now st.requesterList st.requesterCounter
    with ⟨lst, counter⟩
  unfold requesterCountAfterAppend at hex
  rw [hp] at hex
  simp only at hex
  have hrec : CheckRequesterRecord cfg now ip st =
      { blockedHosts := assocSet st.blockedHosts ip now
        requesterList := lst ++ [(ip, now)]
        requesterCounter := assocSet counter ip ((assocGet counter ip).getD 0 + 1)
        savedFile :=
          if cfg.savedStateSet then some (assocSet st.blockedHosts ip now)
          else st.savedFile } := by
    unfold CheckRequesterRecord
    rw [hp]
    simp only [assocGet_assocSet_self, Option.getD_some]
    rw [if_pos hex]
  refine ⟨?_, ?_, ?_⟩
  · rw [hrec]
    exact assocGet_assocSet_self st.blockedHosts ip now
  · intro hs
    rw [hrec]
    simp [hs]
  · intro now2
    rw [hrec]
    unfold BBRHandleRequest BBRIsIpBlocked BlockedStateIsIpBlocked
    simp [assocGet_assocSet_self]

/-- C7 witness: with `maxNumRequests = 1` and a saved-state path set,
the second request from IP 7 inside the window blocks the IP with its
timestamp, the written state contains it, and a later request from IP 7
does not reach the downstream handler. -/
theorem blockByRate_exceed_blocks_witness :
    assocGet (CheckRequesterRecord cfgExample 1 7 stExample).blockedHosts 7
      = some 1 ∧
    (CheckRequesterRecord cfgExample 1 7 stExample).savedFile
      = some (CheckRequesterRecord cfgExample 1 7 stExample).blockedHosts ∧
    (BBRHandleRequest cfgExample 5 (CheckRequesterRecord cfgExample 1 7 stExample)
      (some (some 7))).downstreamInvoked = false :=
  ⟨(blockByRate_exceed_blocks cfgExample 1 7 stExample (by decide)).1,
    (blockByRate_exceed_blocks cfgExample 1 7 stExample (by decide)).2.1 rfl,
    (blockByRate_exceed_blocks cfgExample 1 7 stExample (by decide)).2.2 5⟩

/-- C8.  Routing behaviour of `HandlerByPathMap` and `EndPointHandler`:
the empty path splits to the key `""`; a non-empty path not starting
with `/` answers 404; a successful split cuts `relPath` into the
this-level key — `/` followed by the longest prefix of
`VALID_CHARS_PATH` characters (alphanumerics plus `-` and `_`) — and
the remainder, which is empty or starts with a character outside that
set; a missing this-level entry answers 404, a missing method entry
answers 404, and otherwise the mapped handler is invoked with `relPath`
replaced by the next-level path; an `EndPointHandler` invokes its
wrapped handler exactly when `relPath` is empty and answers 404
otherwise. -/
theorem handlerByPath_routing
    (pathMap : List Char → Option (String → Option Nat)) (command : String)
    (relPath : List Char) (wrapped : Nat) :
    SplitThisAndNextLevelPath [] = .ok ([], []) ∧
    (∀ c rest, c ≠ '/' →
      HandlerByPathInner pathMap command (c :: rest) = .notFound404) ∧
    (∀ key next, SplitThisAndNextLevelPath relPath = .ok (key, next) →
      key ++ next = relPath ∧
      (relPath = [] → key = [] ∧ next = []) ∧
      (relPath ≠ [] → ∃ seg, key = '/' :: seg ∧ seg.all isValidPathChar = true ∧
        (next = [] ∨ ∃ d rest2, next = d :: rest2 ∧ isValidPathChar d = false))) ∧
    (∀ key next, SplitThisAndNextLevelPath relPath = .ok (key, next) →
      pathMap key = none →
      HandlerByPathInner pathMap command relPath = .notFound404) ∧
    (∀ key next mm, SplitThisAndNextLevelPath relPath = .ok (key, next) →
      pathMap key = some mm → mm command = none →
      HandlerByPathInner pathMap command relPath = .notFound404) ∧
    (∀ key next mm hdl, SplitThisAndNextLevelPath relPath = .ok (key, next) →
      pathMap key = some mm → mm command = some hdl →
      HandlerByPathInner pathMap command relPath = .invoke hdl next) ∧
    (EndPointHandlerInner wrapped relPath = .invoke wrapped relPath ↔ relPath = []) ∧
    (relPath ≠ [] → EndPointHandlerInner wrapped relPath = .notFound404) := by
  refine ⟨rfl, ?_, ?_, ?_, ?_, ?_, ?_, ?_⟩
  · intro c rest hc
    unfold HandlerByPathInner SplitThisAndNextLevelPath
    simp [hc]
  · intro key next hsplit
    cases relPath with
    | nil =>
      simp [SplitThisAndNextLevelPath] at hsplit
      obtain ⟨rfl, rfl⟩ := hsplit
      exact ⟨rfl, fun _ => ⟨rfl, rfl⟩, fun hne => absurd rfl hne⟩
    | cons c rest =>
      by_cases hc : c = '/'
      · subst hc
        simp [SplitThisAndNextLevelPath] at hsplit
        obtain ⟨rfl, rfl⟩ := hsplit
        refine ⟨by simp [List.takeWhile_append_dropWhile], ?_, ?_⟩
        · intro hemp
          simp at hemp
        · intro _
          refine ⟨rest.takeWhile isValidPathChar, rfl, ?_, ?_⟩
          · rw [List.all_eq_true]
            intro x hx
            exact List.mem_takeWhile_imp hx
          · cases hn : rest.dropWhile isValidPathChar with
            | nil => exact Or.inl rfl
            | cons d r2 =>
              refine Or.inr ⟨d, r2, rfl, ?_⟩
              have hh := List.head?_dropWhile_not isValidPathChar rest
              rw [hn] at hh
              simpa using hh
      · simp [SplitThisAndNextLevelPath, hc] at hsplit
  · intro key next hsplit hmap
    unfold HandlerByPathInner
    simp [hsplit, hmap]
  · intro key next mm hsplit hmap hmeth
    unfold HandlerByPathInner
    simp [hsplit, hmap, hmeth]
  · intro key next mm hdl hsplit hmap hmeth
    unfold HandlerByPathInner
    simp [hsplit, hmap, hmeth]
  · by_cases h : relPath = [] <;> simp [EndPointHandlerInner, h]
  · intro h
    simp [EndPointHandlerInner, h]

/-- C8 witness: with the example map, `GET /a/b` is routed to handler 1
with next-level path `/b`, and an end-point handler fires on the empty
path. -/
theorem handlerByPath_routing_witness :
    HandlerByPathInner pathMapExample "GET" "/a/b".toList
      = RouteOutcome.invoke 1 "/b".toList ∧
    EndPointHandlerInner 3 [] = RouteOutcome.invoke 3 [] :=
  ⟨(handlerByPath_routing pathMapExample "GET" "/a/b".toList 3).2.2.2.2.2.1
      "/a".toList "/b".toList (fun m => if m = "GET" then some 1 else none) 1
      rfl rfl rfl,
    ((handlerByPath_routing pathMapExample "GET" [] 3).2.2.2.2.2.2.1).mpr rfl⟩

end PyNetworkLib
